import Mathlib

/-!
Verification of the route-tree construction subsystem of the
`immutable-app` framework (`lib/init.js`, first file variant).

The JavaScript code is shallowly embedded: plain-object values exported by
controller/model files become the inductive `JVal`; lodash's `_.merge`
becomes `lmerge`; the per-directory scan `initAppDir` becomes
`initAppDirFs`/`scanDirs` over an abstract filesystem tree `FsNode`;
the per-node part of `initRoutes` (template claiming, default-controller
synthesis, path sorting) becomes `claimAll`, `addTemplateControllers` and
`sortPaths`; `getDir` becomes `getDir` over an abstract `stat` oracle.
-/

set_option maxHeartbeats 1000000

namespace ImmutableApp

/--
A JSON-like plain-object value, as exported by a `*.controller.js` or
`*.model.js` file. Scalars and functions are abstracted to tagged atoms
(`_.merge` treats both as non-mergeable leaves that overwrite); arrays and
plain objects are the mergeable shapes. Object fields are an association
list in insertion order, mirroring JS property-insertion order.
-/
inductive JVal where
  | atom (tag : String) : JVal
  | arr (elems : List JVal) : JVal
  | obj (fields : List (String × JVal)) : JVal
deriving Repr

mutual
/-- Decidable equality on `JVal` (hand-rolled: the derive handler does not
support this nested inductive). -/
def JVal.decEq : (a b : JVal) → Decidable (a = b)
  | .atom x, .atom y =>
      if h : x = y then .isTrue (by rw [h]) else .isFalse (by intro c; cases c; exact h rfl)
  | .atom _, .arr _ => .isFalse (by intro h; cases h)
  | .atom _, .obj _ => .isFalse (by intro h; cases h)
  | .arr _, .atom _ => .isFalse (by intro h; cases h)
  | .arr x, .arr y =>
      match JVal.decEqList x y with
      | .isTrue h => .isTrue (by rw [h])
      | .isFalse h => .isFalse (by intro c; cases c; exact h rfl)
  | .arr _, .obj _ => .isFalse (by intro h; cases h)
  | .obj _, .atom _ => .isFalse (by intro h; cases h)
  | .obj _, .arr _ => .isFalse (by intro h; cases h)
  | .obj x, .obj y =>
      match JVal.decEqFields x y with
      | .isTrue h => .isTrue (by rw [h])
      | .isFalse h => .isFalse (by intro c; cases c; exact h rfl)

/-- Decidable equality for lists of `JVal`. -/
def JVal.decEqList : (a b : List JVal) → Decidable (a = b)
  | [], [] => .isTrue rfl
  | [], _ :: _ => .isFalse (by intro h; cases h)
  | _ :: _, [] => .isFalse (by intro h; cases h)
  | x :: xs, y :: ys =>
      match JVal.decEq x y with
      | .isTrue h1 =>
          match JVal.decEqList xs ys with
          | .isTrue h2 => .isTrue (by rw [h1, h2])
          | .isFalse h2 => .isFalse (by intro c; cases c; exact h2 rfl)
      | .isFalse h1 => .isFalse (by intro c; cases c; exact h1 rfl)

/-- Decidable equality for association lists of `JVal` fields. -/
def JVal.decEqFields : (a b : List (String × JVal)) → Decidable (a = b)
  | [], [] => .isTrue rfl
  | [], _ :: _ => .isFalse (by intro h; cases h)
  | _ :: _, [] => .isFalse (by intro h; cases h)
  | (k, x) :: xs, (k', y) :: ys =>
      if hk : k = k' then
        match JVal.decEq x y with
        | .isTrue h1 =>
            match JVal.decEqFields xs ys with
            | .isTrue h2 => .isTrue (by rw [hk, h1, h2])
            | .isFalse h2 => .isFalse (by intro c; cases c; exact h2 rfl)
        | .isFalse h1 => .isFalse (by intro c; cases c; exact h1 rfl)
      else .isFalse (by intro c; cases c; exact hk rfl)
end

instance : DecidableEq JVal := JVal.decEq

/-- Association-list lookup used throughout (JS property access `o[k]`). -/
def aLookup (k : String) : List (String × α) → Option α
  | [] => none
  | (k', v) :: rest => if k' = k then some v else aLookup k rest

/-- Keys of an association list. -/
def aKeys (l : List (String × α)) : List String := l.map Prod.fst

/-- JS property assignment `o[k] = v` on an association list: replace the
value of an existing key in place, or append a new key at the end
(JS property-insertion order; keys of a JS object are unique). -/
def aSet : List (String × α) → String → α → List (String × α)
  | [], k, v => [(k, v)]
  | (k', v') :: rest, k, v =>
    if k' = k then (k', v) :: rest else (k', v') :: aSet rest k v

/-- JS in-place update of the value of an existing key (`o[k].x = …`,
`delete o[k].x`): no effect when the key is absent. -/
def aUpdate : List (String × α) → String → (α → α) → List (String × α)
  | [], _, _ => []
  | (k', v') :: rest, k, f =>
    if k' = k then (k', f v') :: rest else (k', v') :: aUpdate rest k f

/-! ### Character-list implementations of the JS string operations

The JS code uses regexp suffix tests, `split`, `path.relative` joining and
case conversion. These are modelled on the character lists underlying
`String` (Lean's own `String.split`/`endsWith` are not used so that every
definition evaluates by kernel reduction).
-/

/-- JS regexp suffix test (`/controller\.js$/.test(name)` and friends). -/
def strEndsWith (s suffixStr : String) : Bool :=
  List.isSuffixOf suffixStr.data s.data

/-- Remove the last `n` characters (stripping a matched extension). -/
def strDropRight (s : String) (n : Nat) : String :=
  ⟨s.data.take (s.data.length - n)⟩

/-- JS `String.prototype.split` on a single separator character, at the
character-list level. `''.split(sep)` is `['']`. -/
def charSplit (sep : Char) : List Char → List (List Char)
  | [] => [[]]
  | c :: cs =>
    let r := charSplit sep cs
    if c = sep then [] :: r
    else
      match r with
      | [] => [[c]]
      | w :: ws => (c :: w) :: ws

/-- Predicate variant of `charSplit`, used by the model of the external
change-case library. -/
def charSplitP (p : Char → Bool) : List Char → List (List Char)
  | [] => [[]]
  | c :: cs =>
    let r := charSplitP p cs
    if p c then [] :: r
    else
      match r with
      | [] => [[c]]
      | w :: ws => (c :: w) :: ws

/-- JS `file.split('.')`. -/
def strSplitDot (s : String) : List String :=
  (charSplit '.' s.data).map fun cs => ⟨cs⟩

/-- Joining path segments with `/` (the form `path.relative` returns for a
descendant directory). -/
def joinSlash : List String → String
  | [] => ""
  | [s] => s
  | s :: rest => s ++ "/" ++ joinSlash rest

mutual
/--
Embedding of lodash `_.merge(dst, src)` as used by `initAppDir`
(`_.merge(route.controller, controller)`, `_.merge(route.model, model)`)
and by `initApp` (`_.merge(config.routes, module.routes)`):
a leaf (scalar/function) source value overwrites the destination; an array
source merges element-by-element into an array destination (extra elements
of the longer array are kept); an object source merges key-by-key into an
object destination; on shape mismatch the source value wins (the corner
where a plain-object source merges into an array destination is simplified
to source-wins; no code path in this repository reaches it).
-/
def lmerge : JVal → JVal → JVal
  | _, .atom t => .atom t
  | .arr dl, .arr sl => .arr (lmergeArr dl sl)
  | _, .arr sl => .arr sl
  | .obj dl, .obj sl => .obj (lmergeObjGo dl sl)
  | _, .obj sl => .obj sl

/-- Element-by-element array merge of `_.merge`: index `i` of the source
merges over index `i` of the destination; the tail of the longer array is
kept unchanged. -/
def lmergeArr : List JVal → List JVal → List JVal
  | dl, [] => dl
  | [], sl => sl
  | d :: dl, s :: sl => lmerge d s :: lmergeArr dl sl

/-- Key-by-key object merge of `_.merge`: each source field is merged into
the destination in source insertion order — recursively merged over an
existing destination value, appended otherwise. -/
def lmergeObjGo : List (String × JVal) → List (String × JVal) → List (String × JVal)
  | dl, [] => dl
  | dl, (k, v) :: sl =>
    let newV :=
      match aLookup k dl with
      | some dv => lmerge dv v
      | none => v
    lmergeObjGo (aSet dl k newV) sl
end

/-! ## Route-path ordering (`sortPlaceholdersLower` and the sort in `initRoutes`) -/

/-- `path.match(placeholderRegExp)` for `placeholderRegExp = /:/`:
true iff the path string contains the placeholder marker `:` anywhere. -/
def hasPlaceholder (s : String) : Bool := s.data.contains ':'

/--
Embedding of `sortPlaceholdersLower(a, b)`: the comparator passed to
`pathNames.sort` in `initRoutes`. Returns `0` when both or neither path
contains `:`, `1` to move `a` down when only `a` contains `:`, and `-1` to
move `a` up when only `b` contains `:`.
-/
def sortPlaceholdersLower (a b : String) : Int :=
  let aPlaceholder := hasPlaceholder a
  let bPlaceholder := hasPlaceholder b
  if aPlaceholder && bPlaceholder then 0
  else if aPlaceholder then 1
  else if bPlaceholder then -1
  else 0

/-- Stable insertion of `x` (which originally precedes every element of the
list) for a JS comparator `c`: `x` is moved past `y` only when `c x y > 0`.
This is the per-element behaviour of the stable `Array.prototype.sort`
required by the ECMAScript specification. -/
def insertStable (c : String → String → Int) (x : String) : List String → List String
  | [] => [x]
  | y :: ys => if c x y > 0 then y :: insertStable c x ys else x :: y :: ys

/-- Stable sort with a JS comparator, modelling `Array.prototype.sort`
(spec-mandated stable): elements are inserted from the right, preserving
original relative order of elements that compare equal. -/
def stableSortJs (c : String → String → Int) : List String → List String
  | [] => []
  | x :: xs => insertStable c x (stableSortJs c xs)

/-- `pathNames.sort(sortPlaceholdersLower)` in `initRoutes`: the sorted
order in which controller paths are bound to the router. -/
def sortPaths (l : List String) : List String := stableSortJs sortPlaceholdersLower l

/-! ## Per-node template state and controller path table -/

/-- `route.templates`: template base-name, then role, then template path
(`route.templates[name].role[role] = templatePath`), both levels in
insertion order. -/
abbrev TMap := List (String × List (String × String))

/-- One role-specific handler spec inside `controller.paths[path][method]`.
Only the fields read or written by `initRoutes` are modelled: `spec.role`,
`spec.template`, `spec.methodName` (each possibly absent in JS). -/
structure CSpec where
  role : Option String
  template : Option String
  methodName : Option String
deriving DecidableEq, Repr

/-- `controller.paths`: path, then http method, then the list of
role-specific handler specs, in insertion order. -/
abbrev Paths := List (String × List (String × List CSpec))

/-- Role map of one template name in the unclaimed clone. -/
def rolesOf (bare : TMap) (tname : String) : List (String × String) :=
  (aLookup tname bare).getD []

/-- JS `delete o[k]`: remove the property named `k`. -/
def eraseKey {α : Type} : List (String × α) → String → List (String × α)
  | [], _ => []
  | (k', v') :: rest, k =>
    if k' = k then eraseKey rest k else (k', v') :: eraseKey rest k

/-- `delete bareTemplates[tname].role[role]` on the unclaimed clone. -/
def eraseRole (bare : TMap) (tname role : String) : TMap :=
  aUpdate bare tname fun roles => eraseKey roles role

/-- Lookup of one `(name, role)` template path in a template map. -/
def lookupRole (m : TMap) (tname role : String) : Option String :=
  aLookup role (rolesOf m tname)

/--
The body of the claiming loop in `initRoutes`: for one handler spec, take
`role = spec.role || 'all'` and `template = spec.template || spec.methodName`;
if `route.templates[template]` exists, delete the matching role entry from
the unclaimed clone `bareTemplates[template].role` — the spec's exact role
if still present there, otherwise the `'all'` entry if present.
-/
def claimStep (templates : TMap) (bare : TMap) (spec : CSpec) : TMap :=
  let role := spec.role.getD "all"
  match spec.template.orElse fun _ => spec.methodName with
  | none => bare
  | some template =>
    if (aLookup template templates).isSome then
      if (aLookup role (rolesOf bare template)).isSome then
        eraseRole bare template role
      else if (aLookup "all" (rolesOf bare template)).isSome then
        eraseRole bare template "all"
      else bare
    else bare

/-- All handler specs of a controller path table, in iteration order
(path order, then method order, then role-spec order) — the order in which
the three nested `_.each` loops of `initRoutes` enumerate them. -/
def allSpecs (paths : Paths) : List CSpec :=
  paths.flatMap fun p => p.2.flatMap fun m => m.2

/-- The whole claiming pass of `initRoutes`: starting from the deep clone
`bareTemplates = _.cloneDeep(route.templates)`, run `claimStep` for every
handler spec of every method of every path. -/
def claimAll (templates : TMap) (bare : TMap) (paths : Paths) : TMap :=
  (allSpecs paths).foldl (claimStep templates) bare

/-- Path a synthesized default controller is registered on: template name
`index` maps to the node's own path `/`, any other name to `/` + name. -/
def synthPath (tname : String) : String :=
  if tname = "index" then "/" else "/" ++ tname

/-- The spec object pushed by the synthesis loop:
`{ role: role, template: templatePath }` (no `methodName`). -/
def synthSpec (role templatePath : String) : CSpec :=
  { role := some role, template := some templatePath, methodName := none }

/-- `controller.paths[path] = {}` / `controller.paths[path]['get'] = []` /
`push(spec)`: append one spec at the end of the list for `(path, 'get')`,
creating the path and method entries if absent. -/
def pushGetSpec (paths : Paths) (path : String) (spec : CSpec) : Paths :=
  let methods := (aLookup path paths).getD []
  let specs := (aLookup "get" methods).getD []
  aSet paths path (aSet methods "get" (specs ++ [spec]))

/--
The synthesis loop of `initRoutes`: for every template name and every role
entry left in the unclaimed clone, push a GET spec
`{ role, template: templatePath }` on the path derived from the template
name, after any spec already present for that path and method.
-/
def addTemplateControllers (bare : TMap) (paths : Paths) : Paths :=
  bare.foldl (fun acc e =>
    e.2.foldl (fun acc2 r => pushGetSpec acc2 (synthPath e.1) (synthSpec r.1 r.2)) acc) paths

/-- Specs registered for `(path, method)` in a path table (`[]` if the path
or method entry is absent). -/
def lookupSpecs (paths : Paths) (path method : String) : List CSpec :=
  (aLookup method ((aLookup path paths).getD [])).getD []

/-- The per-node state read and written by the template-claiming and
default-controller-synthesis part of `initRoutes`: the node's scanned
template map and the instantiated controller's path table. -/
structure NodeCtl where
  templates : TMap
  paths : Paths
deriving DecidableEq, Repr

/--
The template part of `initRoutes` for one node: clone the node's template
map (`bareTemplates = _.cloneDeep(route.templates)`), delete from the clone
every `(name, role)` entry claimed by a controller handler spec, then push
a synthesized GET spec for every entry left on the clone. The node's own
`templates` field is only read, never written.
-/
def initRoutesNode (n : NodeCtl) : NodeCtl :=
  let bare := n.templates
  let bare := claimAll n.templates bare n.paths
  let paths := addTemplateControllers bare n.paths
  { n with paths := paths }

/-! ## Abstract filesystem and the route tree built by `initAppDir` -/

/-- One filesystem entry as classified by `initAppDir` via `fs.statSync`:
a regular file (carrying the value its `require` would export; irrelevant
and ignored for template files), a directory with named entries in
`readdirSync` order, or anything else (device file, socket, …), which the
scan ignores. -/
inductive FsNode where
  | file (content : JVal) : FsNode
  | dir (entries : List (String × FsNode)) : FsNode
  | special : FsNode
deriving Repr

/-- One node of `module.routes` / `config.routes`: the `loaded` guard flag,
the `root` flag set by `routeFromRel` on the empty relative path, the
accumulated controller and model specs, the template maps, and the child
nodes (`route.routes`) keyed by path segment in creation order. -/
inductive RTree where
  | mk (loaded root : Bool) (controller model : JVal) (templates : TMap)
       (templatesInverse : List (String × String × String))
       (children : List (String × RTree)) : RTree
deriving Repr

mutual
/-- Decidable equality on `RTree` (hand-rolled, as for `JVal`). -/
def RTree.decEq : (a b : RTree) → Decidable (a = b)
  | .mk l1 r1 c1 m1 t1 i1 ch1, .mk l2 r2 c2 m2 t2 i2 ch2 =>
    if h1 : l1 = l2 then
      if h2 : r1 = r2 then
        if h3 : c1 = c2 then
          if h4 : m1 = m2 then
            if h5 : t1 = t2 then
              if h6 : i1 = i2 then
                match RTree.decEqChildren ch1 ch2 with
                | .isTrue h7 => .isTrue (by rw [h1, h2, h3, h4, h5, h6, h7])
                | .isFalse h7 => .isFalse (by intro c; cases c; exact h7 rfl)
              else .isFalse (by intro c; cases c; exact h6 rfl)
            else .isFalse (by intro c; cases c; exact h5 rfl)
          else .isFalse (by intro c; cases c; exact h4 rfl)
        else .isFalse (by intro c; cases c; exact h3 rfl)
      else .isFalse (by intro c; cases c; exact h2 rfl)
    else .isFalse (by intro c; cases c; exact h1 rfl)

/-- Decidable equality for `RTree` child maps. -/
def RTree.decEqChildren : (a b : List (String × RTree)) → Decidable (a = b)
  | [], [] => .isTrue rfl
  | [], _ :: _ => .isFalse (by intro h; cases h)
  | _ :: _, [] => .isFalse (by intro h; cases h)
  | (k, x) :: xs, (k', y) :: ys =>
    if hk : k = k' then
      match RTree.decEq x y with
      | .isTrue h1 =>
        match RTree.decEqChildren xs ys with
        | .isTrue h2 => .isTrue (by rw [hk, h1, h2])
        | .isFalse h2 => .isFalse (by intro c; cases c; exact h2 rfl)
      | .isFalse h1 => .isFalse (by intro c; cases c; exact h1 rfl)
    else .isFalse (by intro c; cases c; exact hk rfl)
end

instance : DecidableEq RTree := RTree.decEq

/-- Decidable equality for `Except` results (not provided by the core
library). -/
def exceptDecEq {ε α : Type} [DecidableEq ε] [DecidableEq α] :
    (a b : Except ε α) → Decidable (a = b)
  | .error e1, .error e2 =>
    if h : e1 = e2 then .isTrue (by rw [h]) else .isFalse (by intro c; cases c; exact h rfl)
  | .error _, .ok _ => .isFalse (by intro h; cases h)
  | .ok _, .error _ => .isFalse (by intro h; cases h)
  | .ok a1, .ok a2 =>
    if h : a1 = a2 then .isTrue (by rw [h]) else .isFalse (by intro c; cases c; exact h rfl)

instance {ε α : Type} [DecidableEq ε] [DecidableEq α] : DecidableEq (Except ε α) :=
  exceptDecEq

def RTree.loaded : RTree → Bool
  | .mk l _ _ _ _ _ _ => l

def RTree.root : RTree → Bool
  | .mk _ r _ _ _ _ _ => r

def RTree.controller : RTree → JVal
  | .mk _ _ c _ _ _ _ => c

def RTree.model : RTree → JVal
  | .mk _ _ _ m _ _ _ => m

def RTree.templates : RTree → TMap
  | .mk _ _ _ _ t _ _ => t

def RTree.templatesInverse : RTree → List (String × String × String)
  | .mk _ _ _ _ _ i _ => i

def RTree.children : RTree → List (String × RTree)
  | .mk _ _ _ _ _ _ ch => ch

/-- A freshly created route node (`route.routes[dir] = {}` in
`routeFromRel`): nothing loaded, no specs, no children. -/
def RTree.empty : RTree := .mk false false (.obj []) (.obj []) [] [] []

/-- Replace the child named `name` (keeping its position) or append it. -/
def setChild (t : RTree) (name : String) (c : RTree) : RTree :=
  match t with
  | .mk l r co m tp i ch => .mk l r co m tp i (aSet ch name c)

/-- The node reached by walking `rel` from `t` (a fresh empty node where a
segment is missing — the node `routeFromRel` would create there). -/
def nodeAt : RTree → List String → RTree
  | t, [] => t
  | t, d :: rest => nodeAt ((aLookup d t.children).getD RTree.empty) rest

/-- `route.root = true`. -/
def RTree.setRoot : RTree → RTree
  | .mk l _ co m tp i ch => .mk l true co m tp i ch

/-- The node-creating walk of `routeFromRel` over a non-empty relative
path. -/
def ensurePathGo : RTree → List String → RTree
  | t, [] => t
  | t, d :: rest => setChild t d (ensurePathGo ((aLookup d t.children).getD RTree.empty) rest)

/-- Embedding of `routeFromRel(route, rel)`'s effect on the tree: on the
empty relative path set the `root` flag of the tree's own node and stop;
otherwise create a node for every missing segment of `rel` (no `root` flag
is set anywhere on that branch). -/
def ensurePath (t : RTree) (rel : List String) : RTree :=
  match rel with
  | [] => t.setRoot
  | _ => ensurePathGo t rel

/-- Apply `f` to the node at `rel` (to be used after `ensurePath`, so the
walked nodes exist). -/
def updateAt : RTree → List String → (RTree → RTree) → RTree
  | t, [], f => f t
  | t, d :: rest, f => setChild t d (updateAt ((aLookup d t.children).getD RTree.empty) rest f)

/-- `route.loaded = true`. -/
def markLoaded : RTree → RTree
  | .mk _ r co m tp i ch => .mk true r co m tp i ch

/-! ## Per-directory file processing (the file loop of `initAppDir`) -/

/-- The fields of the route node that the file loop of `initAppDir`
freshly computes for the directory being scanned. -/
structure ScanResult where
  controller : JVal
  model : JVal
  templates : TMap
  templatesInverse : List (String × String × String)
deriving Repr, DecidableEq

/-- `route.controller = {}; route.model = {}; route.templates = {};
route.templatesInverse = {}` before the file loop runs. -/
def ScanResult.init : ScanResult :=
  { controller := .obj [], model := .obj [], templates := [], templatesInverse := [] }

/-- `route.templates[name].role[role] = templatePath`, creating the
`{ role: {} }` entry for `name` if absent. -/
def setRole (m : TMap) (tname role tpath : String) : TMap :=
  aSet m tname (aSet ((aLookup tname m).getD []) role tpath)

/-- `route.templatesInverse[templatePath] = { name, role }`. -/
def setInverse (m : List (String × String × String)) (tpath tname role : String) :
    List (String × String × String) :=
  aSet m tpath (tname, role)

/-- Field lookup on a controller/model spec value (`undefined` on a
non-object, which the file loop can only produce from degenerate exports). -/
def objLookup (k : String) : JVal → Option JVal
  | .obj fields => aLookup k fields
  | _ => none

/-- JS property assignment `o[k] = v` on a spec value (no-op on a
non-object). -/
def objSet (o : JVal) (k : String) (v : JVal) : JVal :=
  match o with
  | .obj fields => .obj (aSet fields k v)
  | other => other

/--
One iteration of the file loop of `initAppDir`: a file matching
`/controller\.js$/` has its export deep-merged into `route.controller`; else
a file matching `/model\.js$/` is deep-merged into `route.model`; else a
file matching the template extension is split on `.` into `name` or
`name.role` and recorded in the template maps, any other split arity being
the fatal `invalid template file name` error; anything else is ignored.
-/
def classifyFile (ext relStr : String) (acc : ScanResult) (file : String × JVal) :
    Except String ScanResult :=
  let name := file.1
  if strEndsWith name "controller.js" then
    .ok { acc with controller := lmerge acc.controller file.2 }
  else if strEndsWith name "model.js" then
    .ok { acc with model := lmerge acc.model file.2 }
  else if strEndsWith name ext then
    let f := strDropRight name ext.data.length
    let templatePath := (if relStr.data.length ≠ 0 then relStr ++ "/" else "") ++ f
    match strSplitDot f with
    | [n] =>
      .ok { acc with
              templates := setRole acc.templates n "all" templatePath,
              templatesInverse := setInverse acc.templatesInverse templatePath n "all" }
    | [n, role] =>
      .ok { acc with
              templates := setRole acc.templates n role templatePath,
              templatesInverse := setInverse acc.templatesInverse templatePath n role }
    | _ => .error ("invalid template file name " ++ f)
  else
    .ok acc

/-- The file loop itself, in `readdirSync` order. -/
def processFilesGo (ext relStr : String) (acc : ScanResult) :
    List (String × JVal) → Except String ScanResult
  | [] => .ok acc
  | f :: rest =>
    match classifyFile ext relStr acc f with
    | .error e => .error e
    | .ok acc' => processFilesGo ext relStr acc' rest

/-- Models the `camelCase` function of the external change-case library
(only used to default `route.controller.name`; no claim depends on its
exact output). -/
def camelCase (s : String) : String :=
  match ((charSplitP (fun c => c = '/' || c = '-' || c = '_' || c = ' ' || c = '.') s.data).filter
      fun w => w ≠ []) with
  | [] => ""
  | w :: ws =>
    (⟨w.map Char.toLower⟩ : String) ++ String.join (ws.map fun u =>
      match u with
      | [] => ""
      | c :: cs => String.mk (c.toUpper :: cs))

/-- Models the `pascalCase` function of the external change-case library. -/
def pascalCase (s : String) : String :=
  String.join ((((charSplitP (fun c => c = '/' || c = '-' || c = '_' || c = ' ' || c = '.') s.data).filter
      fun w => w ≠ [])).map
    fun u =>
      match u with
      | [] => ""
      | c :: cs => String.mk (c.toUpper :: cs))

/--
The whole file-processing step of `initAppDir` for one directory: fold the
file loop over the directory's files, then default `route.controller.name`
from the module name and relative path and `route.controller.path` from the
relative path when the merged controller spec leaves them unset.
-/
def processFiles (moduleName ext relStr : String) (files : List (String × JVal)) :
    Except String ScanResult :=
  match processFilesGo ext relStr ScanResult.init files with
  | .error e => .error e
  | .ok acc =>
    let c := acc.controller
    let c :=
      if (objLookup "name" c).isNone then
        objSet c "name"
          (.atom (camelCase moduleName
            ++ pascalCase (if relStr.data.length ≠ 0 then relStr else "Index")))
      else c
    let c := if (objLookup "path" c).isNone then objSet c "path" (.atom relStr) else c
    .ok { acc with controller := c }

/-- Install the freshly computed fields on the scanned node (the
assignments `route.controller = …`, `route.model = …`, `route.templates = …`,
`route.templatesInverse = …`). -/
def installScan (r : ScanResult) : RTree → RTree
  | .mk l ro _ _ _ _ ch => .mk l ro r.controller r.model r.templates r.templatesInverse ch

/-- The files of a directory listing, with contents, in `readdirSync`
order (the `files` list collected by the stat loop of `initAppDir`). -/
def filesOf (entries : List (String × FsNode)) : List (String × JVal) :=
  entries.filterMap fun e =>
    match e.2 with
    | .file c => some (e.1, c)
    | _ => none

/-- The sub-directory names of a directory listing (the `dirNames` map that
`initAppDir` collects "for doing conflict checking" — and then never
consults; modelled faithfully as computed-but-unused). -/
def dirNamesOf (entries : List (String × FsNode)) : List String :=
  entries.filterMap fun e =>
    match e.2 with
    | .dir _ => some e.1
    | _ => none

/-- The non-recursive tail of `initAppDir` for one directory node: after
the depth-first recursion into the sub-directories produced `scanned`, run
the file loop over the directory's own files and install the result on the
node at `rel`. -/
def finishNode (moduleName ext : String) (rel : List String)
    (entries : List (String × FsNode)) (scanned : Except String RTree) :
    Except String RTree :=
  match scanned with
  | .error e => .error e
  | .ok t3 =>
    match processFiles moduleName ext (joinSlash rel) (filesOf entries) with
    | .error e => .error e
    | .ok r => .ok (updateAt t3 rel (installScan r))

mutual
/--
Embedding of `initAppDir(config, module, appDir, appSubDir)` for the
directory node at relative path `rel`: resolve the node via `routeFromRel`
(creating missing segments), short-circuit when it is already `loaded`,
otherwise mark it loaded, recurse depth-first into the sub-directories in
listing order (`scanDirs`), then run the file loop and install the result
on the node (`finishNode`). The `dirNames` map is computed and, as in the
source, never consulted afterwards. On a non-directory entry the function
is a no-op, because `initAppDir` is only ever invoked on directories (the
stat loop routes files to the `files` list instead).
-/
def initAppDirFs (moduleName ext : String) (rel : List String) (t : RTree) :
    FsNode → Except String RTree
  | .dir entries =>
    let t1 := ensurePath t rel
    if (nodeAt t1 rel).loaded then .ok t1
    else
      let t2 := updateAt t1 rel markLoaded
      let _dirNames := dirNamesOf entries
      finishNode moduleName ext rel entries (scanDirs moduleName ext rel t2 entries)
  | _ => .ok t

/-- The depth-first recursion of `initAppDir` over the entries of the
current directory, in listing order: each sub-directory is processed as a
node at its extended relative path; file and special entries contribute
nothing at this stage. -/
def scanDirs (moduleName ext : String) (rel : List String) (t : RTree) :
    List (String × FsNode) → Except String RTree
  | [] => .ok t
  | (name, f) :: rest =>
    match initAppDirFs moduleName ext (rel ++ [name]) t f with
    | .error e => .error e
    | .ok t' => scanDirs moduleName ext rel t' rest
end

/-- Whether an `FsNode` is a directory (`stat.isDirectory()`). -/
def FsNode.isDir : FsNode → Bool
  | .dir _ => true
  | _ => false

/-- `initModule`'s call `initAppDir(config, module, appDir)` for one app
root directory (relative path empty): `readdirSync` on a non-directory
root raises a filesystem error. -/
def initAppDirRoot (moduleName ext : String) (fsRoot : FsNode) (t : RTree) :
    Except String RTree :=
  if fsRoot.isDir then initAppDirFs moduleName ext [] t fsRoot
  else .error "ENOTDIR: not a directory"

/-! ## Cross-module merge of route trees (`_.merge(config.routes, module.routes)`) -/

/-- Leaf-level merge of `{ name, role }` objects keyed by template path
(later-loaded value wins field-wise, hence pair-wise). -/
def inverseMerge (d s : List (String × String × String)) :
    List (String × String × String) :=
  s.foldl (fun acc e => aSet acc e.1 e.2) d

/-- Merge of two `route.templates` maps under `_.merge`: per template name
the role maps merge per role, a later-loaded template path overwriting an
earlier one. -/
def tmapMerge (d s : TMap) : TMap :=
  s.foldl (fun acc e =>
    match aLookup e.1 acc with
    | some _ => aUpdate acc e.1 fun roles => e.2.foldl (fun rs r => aSet rs r.1 r.2) roles
    | none => acc ++ [e]) d

mutual
/--
Embedding of `_.merge(config.routes, module.routes)` in `initApp`, at the
level of the typed route-node record: the `loaded`/`root` booleans are
overwritten when set in the later tree (they are only ever `true` or
absent, so this is disjunction), the controller and model specs deep-merge
via `lmerge`, the template maps merge with later-wins leaves, and the
child maps merge key-by-key recursively, new segments appended in
later-tree order.
-/
def rtreeMerge : RTree → RTree → RTree
  | .mk dl dr dc dm dt di dch, .mk sl sr sc sm st si sch =>
    .mk (dl || sl) (dr || sr) (lmerge dc sc) (lmerge dm sm) (tmapMerge dt st)
      (inverseMerge di si) (childrenMerge dch sch)

/-- Key-by-key merge of `route.routes` child maps: a segment present on
both sides merges recursively in place, a new segment is appended in
later-tree order. -/
def childrenMerge : List (String × RTree) → List (String × RTree) → List (String × RTree)
  | dch, [] => dch
  | dch, (k, c) :: sch =>
    let merged :=
      match aLookup k dch with
      | some c' => rtreeMerge c' c
      | none => c
    childrenMerge (aSet dch k merged) sch
end

/-- `initApp`'s module loop, restricted to its route-merging effect: scan
each module's app root into that module's own tree, then fold the module
trees into the global `config.routes` in module-registration order. -/
def mergeModuleTrees (moduleTrees : List RTree) : RTree :=
  moduleTrees.foldl rtreeMerge RTree.empty

/-! ## `getDir` (directory-list resolution) -/

/-- `path.isAbsolute` for POSIX paths. -/
def isAbsolutePath (d : String) : Bool :=
  match d.data with
  | '/' :: _ => true
  | _ => false

/-- The `err.message` of a failed `fs.statSync` (modelled message text). -/
def statErrMessage (p : String) : String :=
  "ENOENT: no such file or directory, stat " ++ p

/-- The `_.filter` loop of `getDir`: every listed directory is stat'ed
(relative entries resolved against `base`); a stat failure throws
`<name> dir error: …` aborting resolution; a stat success keeps the entry
(the callback returns true whenever it does not throw, so nothing is ever
silently dropped). -/
def getDirFilter (fsStat : String → Bool) (base pn : String) :
    List String → Except String (List String)
  | [] => .ok []
  | d :: rest =>
    let abs := if isAbsolutePath d then d else base ++ "/" ++ d
    if fsStat abs then
      match getDirFilter fsStat base pn rest with
      | .ok l => .ok (d :: l)
      | .error e => .error e
    else .error (pn ++ " dir error: " ++ statErrMessage abs)

/--
Embedding of `getDir(config, name)`: append the default directory
`base + '/' + name` when it stats successfully (a stat failure on the
default directory alone is silently ignored), then run the filter loop
over the configured directories plus the appended default.
-/
def getDir (fsStat : String → Bool) (base : String) (configuredDirs : List String)
    (pn : String) : Except String (List String) :=
  let defaultDir := base ++ "/" ++ pn
  let dirs := if fsStat defaultDir then configuredDirs ++ [defaultDir] else configuredDirs
  getDirFilter fsStat base pn dirs

/-! ## Shared lemmas about association-list primitives -/

theorem aLookup_aSet_self {α : Type} (l : List (String × α)) (k : String) (v : α) :
    aLookup k (aSet l k v) = some v := by
  induction l with
  | nil => simp [aSet, aLookup]
  | cons e rest ih =>
    obtain ⟨k1, v1⟩ := e
    by_cases h : k1 = k
    · simp [aSet, aLookup, h]
    · simp [aSet, aLookup, h, ih]

theorem aLookup_aSet_ne {α : Type} (l : List (String × α)) (k k' : String) (v : α)
    (h : k' ≠ k) : aLookup k' (aSet l k v) = aLookup k' l := by
  induction l with
  | nil =>
    simp only [aSet, aLookup]
    rw [if_neg fun c => h c.symm]
  | cons e rest ih =>
    obtain ⟨k1, v1⟩ := e
    simp only [aSet]
    by_cases h1 : k1 = k
    · rw [if_pos h1]
      simp only [aLookup]
      rw [if_neg fun c => h (c.symm.trans h1), if_neg fun c => h (c.symm.trans h1)]
    · rw [if_neg h1]
      simp only [aLookup]
      by_cases h2 : k1 = k'
      · rw [if_pos h2, if_pos h2]
      · rw [if_neg h2, if_neg h2]
        exact ih

theorem aLookup_aUpdate_self {α : Type} (l : List (String × α)) (k : String) (f : α → α) :
    aLookup k (aUpdate l k f) = (aLookup k l).map f := by
  induction l with
  | nil => simp [aUpdate, aLookup]
  | cons e rest ih =>
    obtain ⟨k1, v1⟩ := e
    by_cases h : k1 = k
    · simp [aUpdate, aLookup, h]
    · simp [aUpdate, aLookup, h, ih]

theorem aLookup_aUpdate_ne {α : Type} (l : List (String × α)) (k k' : String) (f : α → α)
    (h : k' ≠ k) : aLookup k' (aUpdate l k f) = aLookup k' l := by
  induction l with
  | nil => simp [aUpdate]
  | cons e rest ih =>
    obtain ⟨k1, v1⟩ := e
    simp only [aUpdate]
    by_cases h1 : k1 = k
    · rw [if_pos h1]
      simp only [aLookup]
      rw [if_neg fun c => h (c.symm.trans h1), if_neg fun c => h (c.symm.trans h1)]
    · rw [if_neg h1]
      simp only [aLookup]
      by_cases h2 : k1 = k'
      · rw [if_pos h2, if_pos h2]
      · rw [if_neg h2, if_neg h2]
        exact ih

/-! ## C1: merging of array-typed controller fields -/

/-- The `_.merge` element-wise array rule, in closed form: position `i` of
the source merges over position `i` of the destination, and whichever array
is longer contributes its unmatched tail unchanged. -/
theorem lmergeArr_eq_zip (dl sl : List JVal) :
    lmergeArr dl sl
      = (List.zipWith lmerge dl sl) ++ dl.drop sl.length ++ sl.drop dl.length := by
  induction dl generalizing sl with
  | nil =>
    cases sl with
    | nil => simp [lmergeArr]
    | cons s sl' => simp [lmergeArr]
  | cons d dl' ih =>
    cases sl with
    | nil => simp [lmergeArr]
    | cons s sl' => simp [lmergeArr, ih]

/--
C1 counterexample. Module `base` declares the array-typed controller field
`f = ["x", "y"]` at relative path `w`; the later module `app` declares
`f = ["z"]` at the same path. Running the full pipeline — scan each
module's app root with `initAppDir`, then fold the module trees into the
global routes as `initApp` does — gives `f = ["z", "y"]` (lodash `_.merge`
merges arrays index-by-index), not the concatenation `["x", "y", "z"]`
stated by the claim.
-/
theorem c1_concat_counterexample :
    ((initAppDirRoot "base" ".hbs"
        (.dir [("w", .dir [("a.controller.js",
          .file (.obj [("f", .arr [.atom "x", .atom "y"])]))])]) RTree.empty).isOk = true)
    ∧ ((initAppDirRoot "app" ".hbs"
        (.dir [("w", .dir [("b.controller.js",
          .file (.obj [("f", .arr [.atom "z"])]))])]) RTree.empty).isOk = true)
    ∧ objLookup "f"
        (nodeAt
          (mergeModuleTrees
            [((initAppDirRoot "base" ".hbs"
                (.dir [("w", .dir [("a.controller.js",
                  .file (.obj [("f", .arr [.atom "x", .atom "y"])]))])])
                RTree.empty).toOption.getD RTree.empty),
             ((initAppDirRoot "app" ".hbs"
                (.dir [("w", .dir [("b.controller.js",
                  .file (.obj [("f", .arr [.atom "z"])]))])])
                RTree.empty).toOption.getD RTree.empty)])
          ["w"]).controller
        = some (.arr [.atom "z", .atom "y"])
    ∧ objLookup "f"
        (nodeAt
          (mergeModuleTrees
            [((initAppDirRoot "base" ".hbs"
                (.dir [("w", .dir [("a.controller.js",
                  .file (.obj [("f", .arr [.atom "x", .atom "y"])]))])])
                RTree.empty).toOption.getD RTree.empty),
             ((initAppDirRoot "app" ".hbs"
                (.dir [("w", .dir [("b.controller.js",
                  .file (.obj [("f", .arr [.atom "z"])]))])])
                RTree.empty).toOption.getD RTree.empty)])
          ["w"]).controller
        ≠ some (.arr [.atom "x", .atom "y", .atom "z"]) := by decide

/--
C1 amended: for array-typed controller fields declared by several modules
at the same relative path, the final merged value is the lodash `_.merge`
index-wise combination — element `i` of the later-loaded array (recursively
merged) replaces element `i` of the earlier value, and the tail of the
longer array is kept — not the concatenation of the arrays.
-/
theorem c1_array_merge_amended (dl sl : List JVal) (d0 : JVal) :
    lmerge (.arr dl) (.arr sl)
        = .arr ((List.zipWith lmerge dl sl) ++ dl.drop sl.length ++ sl.drop dl.length)
    ∧ lmerge d0 (.arr sl) = (match d0 with
        | .arr dl0 => .arr (lmergeArr dl0 sl)
        | _ => .arr sl) := by
  constructor
  · rw [show lmerge (.arr dl) (.arr sl) = .arr (lmergeArr dl sl) from by
      simp [lmerge]]
    rw [lmergeArr_eq_zip]
  · cases d0 <;> simp [lmerge]

/-! ## C2: two model definitions at one relative path -/

/--
C2 counterexample. A directory `w` containing two model files
(`a.model.js`, `b.model.js`), and two separately registered modules each
contributing a model at relative path `w`, are both accepted: the scan and
the cross-module merge return success, the model specs being deep-merged
(`_.merge(route.model, model)`, comment in the source: "multiple files
will be merged") — no configuration error is raised in either registration
order or combination, contradicting the claim that this is fatal.
-/
theorem c2_duplicate_model_counterexample :
    ((initAppDirRoot "app" ".hbs"
        (.dir [("w", .dir [("a.model.js", .file (.obj [("name", .atom "foo"), ("x", .atom "1")])),
                           ("b.model.js", .file (.obj [("x", .atom "2"), ("y", .atom "3")]))])])
        RTree.empty).isOk = true)
    ∧ (nodeAt ((initAppDirRoot "app" ".hbs"
        (.dir [("w", .dir [("a.model.js", .file (.obj [("name", .atom "foo"), ("x", .atom "1")])),
                           ("b.model.js", .file (.obj [("x", .atom "2"), ("y", .atom "3")]))])])
        RTree.empty).toOption.getD RTree.empty) ["w"]).model
        = .obj [("name", .atom "foo"), ("x", .atom "2"), ("y", .atom "3")]
    ∧ ((initAppDirRoot "base" ".hbs"
        (.dir [("w", .dir [("a.model.js", .file (.obj [("name", .atom "foo"), ("x", .atom "1")]))])])
        RTree.empty).isOk = true)
    ∧ ((initAppDirRoot "app" ".hbs"
        (.dir [("w", .dir [("b.model.js", .file (.obj [("x", .atom "2"), ("y", .atom "3")]))])])
        RTree.empty).isOk = true)
    ∧ (nodeAt (mergeModuleTrees
        [((initAppDirRoot "base" ".hbs"
            (.dir [("w", .dir [("a.model.js", .file (.obj [("name", .atom "foo"), ("x", .atom "1")]))])])
            RTree.empty).toOption.getD RTree.empty),
         ((initAppDirRoot "app" ".hbs"
            (.dir [("w", .dir [("b.model.js", .file (.obj [("x", .atom "2"), ("y", .atom "3")]))])])
            RTree.empty).toOption.getD RTree.empty)]) ["w"]).model
        = .obj [("name", .atom "foo"), ("x", .atom "2"), ("y", .atom "3")] := by decide

/--
C2 amended: a second model definition at the same relative path (from the
same module's directory or from a later-registered module) is deep-merged
over the first with `_.merge` — later-loaded fields win on collision —
and no error is raised; route-tree construction succeeds.
-/
theorem c2_duplicate_model_amended (m1 m2 : JVal) :
    (processFiles "app" ".hbs" "w" [("a.model.js", m1), ("b.model.js", m2)]
      = .ok { controller := .obj [("name", .atom "appW"), ("path", .atom "w")],
              model := lmerge (lmerge (.obj []) m1) m2,
              templates := [], templatesInverse := [] })
    ∧ ((nodeAt (rtreeMerge
          (RTree.mk false false (.obj []) (.obj []) [] []
            [("w", .mk true false (.obj []) m1 [] [] [])])
          (RTree.mk false false (.obj []) (.obj []) [] []
            [("w", .mk true false (.obj []) m2 [] [] [])]))
        ["w"]).model = lmerge m1 m2) := by
  exact ⟨rfl, rfl⟩

/-! ## C3: controller-declared path colliding with a sub-directory segment -/

/--
C3: the code never performs the collision check. A directory whose
controller declares a path entry `/foo` while a sub-directory `foo` serves
as a route segment is accepted without any error: the scan returns the
fully built tree containing both the colliding controller path and the
`foo` child node. (`initAppDir` populates the `dirNames` map "for doing
conflict checking" but no code ever reads it, so no node can move to an
error state for this reason — the claimed fatal configuration error does
not exist in the code.)
-/
theorem c3_collision_accepted :
    initAppDirRoot "app" ".hbs"
      (.dir [("foo", .dir []),
             ("a.controller.js", .file (.obj [("paths", .obj [("/foo", .atom "handler")])]))])
      RTree.empty
    = .ok (RTree.mk true true
        (.obj [("paths", .obj [("/foo", .atom "handler")]),
               ("name", .atom "appIndex"),
               ("path", .atom "")])
        (.obj []) [] []
        [("foo", RTree.mk true false
            (.obj [("name", .atom "appFoo"), ("path", .atom "foo")])
            (.obj []) [] [] [])]) := by decide

/-! ## C9: `getDir` and missing directories -/

/--
C9 counterexample. A configured directory entry that fails `statSync` is
not treated as contributing zero entries: the `_.filter` callback rethrows
the stat failure as `<name> dir error: …`, aborting resolution. (Only the
default `base + '/' + name` directory is probed inside a try/catch whose
errors are ignored.)
-/
theorem c9_missing_configured_counterexample :
    getDir (fun _ => false) "/base" ["conf"] "app"
        = .error "app dir error: ENOENT: no such file or directory, stat /base/conf"
    ∧ getDir (fun _ => false) "/base" ["conf"] "app" ≠ .ok [] := by decide

/--
C9 amended: only the missing default directory (`base + '/' + name`) is
silently treated as contributing zero entries; every configured entry must
stat successfully, and any configured entry whose stat fails — missing or
unreadable — raises `<name> dir error: …`, aborting initialization.
-/
theorem c9_dir_resolution_amended (fsStat : String → Bool) (base pn : String)
    (conf conf1 conf2 : List String) (d : String)
    (hdef : fsStat (base ++ "/" ++ pn) = false)
    (hconf : ∀ x ∈ conf, fsStat (if isAbsolutePath x then x else base ++ "/" ++ x) = true)
    (hconf1 : ∀ x ∈ conf1, fsStat (if isAbsolutePath x then x else base ++ "/" ++ x) = true)
    (hd : fsStat (if isAbsolutePath d then d else base ++ "/" ++ d) = false) :
    getDir fsStat base conf pn = .ok conf
    ∧ getDir fsStat base (conf1 ++ d :: conf2) pn
        = .error (pn ++ " dir error: "
            ++ statErrMessage (if isAbsolutePath d then d else base ++ "/" ++ d)) := by
  have filterOk : ∀ l, (∀ x ∈ l, fsStat (if isAbsolutePath x then x else base ++ "/" ++ x) = true) →
      getDirFilter fsStat base pn l = .ok l := by
    intro l
    induction l with
    | nil => intro _; rfl
    | cons x rest ih =>
      intro hall
      have hx := hall x (List.mem_cons_self x rest)
      have hrest := ih fun y hy => hall y (List.mem_cons_of_mem x hy)
      simp only [getDirFilter, hx, if_true, hrest]
  have filterErr : ∀ l1, (∀ x ∈ l1, fsStat (if isAbsolutePath x then x else base ++ "/" ++ x) = true) →
      ∀ l2, getDirFilter fsStat base pn (l1 ++ d :: l2)
        = .error (pn ++ " dir error: "
            ++ statErrMessage (if isAbsolutePath d then d else base ++ "/" ++ d)) := by
    intro l1
    induction l1 with
    | nil =>
      intro _ l2
      simp only [List.nil_append, getDirFilter, hd]
      simp
    | cons x rest ih =>
      intro hall l2
      have hx := hall x (List.mem_cons_self x rest)
      have hrest := ih fun y hy => hall y (List.mem_cons_of_mem x hy)
      simp only [List.cons_append, getDirFilter, hx, if_true]
      rw [show rest.append (d :: l2) = rest ++ d :: l2 from rfl, hrest l2]
  constructor
  · unfold getDir
    simp only [hdef, if_false]
    exact filterOk conf hconf
  · unfold getDir
    simp only [hdef, if_false]
    exact filterErr conf1 hconf1 conf2

/-- C9 witness: a concrete filesystem where `/base/ok` exists, `/base/app`
(the default) and `/base/bad` do not. -/
theorem c9_dir_resolution_witness :
    getDir (fun p => p = "/base/ok") "/base" ["ok"] "app" = .ok ["ok"]
    ∧ getDir (fun p => p = "/base/ok") "/base" (["ok"] ++ "bad" :: []) "app"
        = .error ("app dir error: "
            ++ statErrMessage (if isAbsolutePath "bad" then "bad" else "/base" ++ "/" ++ "bad")) := by
  exact c9_dir_resolution_amended (fun p => p = "/base/ok") "/base" "app"
    ["ok"] ["ok"] [] "bad" (by decide) (by decide) (by decide) (by decide)

/-! ## C4: ordering of controller paths before route binding -/

theorem sortPlaceholdersLower_lit_nonpos (x y : String)
    (hx : hasPlaceholder x = false) : ¬ sortPlaceholdersLower x y > 0 := by
  unfold sortPlaceholdersLower
  rw [hx]
  cases hasPlaceholder y <;> simp

theorem sortPlaceholdersLower_ph_lit (x y : String)
    (hx : hasPlaceholder x = true) (hy : hasPlaceholder y = false) :
    sortPlaceholdersLower x y = 1 := by
  unfold sortPlaceholdersLower
  rw [hx, hy]
  simp

theorem sortPlaceholdersLower_ph_ph (x y : String)
    (hx : hasPlaceholder x = true) (hy : hasPlaceholder y = true) :
    sortPlaceholdersLower x y = 0 := by
  unfold sortPlaceholdersLower
  rw [hx, hy]
  simp

theorem insertStable_lit (x : String) (hx : hasPlaceholder x = false)
    (l : List String) : insertStable sortPlaceholdersLower x l = x :: l := by
  cases l with
  | nil => rfl
  | cons y ys =>
    unfold insertStable
    rw [if_neg (sortPlaceholdersLower_lit_nonpos x y hx)]

theorem insertStable_ph (x : String) (hx : hasPlaceholder x = true)
    (A B : List String) (hA : ∀ y ∈ A, hasPlaceholder y = false)
    (hB : ∀ y ∈ B, hasPlaceholder y = true) :
    insertStable sortPlaceholdersLower x (A ++ B) = A ++ x :: B := by
  induction A with
  | nil =>
    cases B with
    | nil => rfl
    | cons b B' =>
      simp only [List.nil_append]
      unfold insertStable
      have hb := hB b (List.mem_cons_self b B')
      rw [if_neg (by rw [sortPlaceholdersLower_ph_ph x b hx hb]; decide)]
  | cons a A' ih =>
    have ha := hA a (List.mem_cons_self a A')
    have hA' := fun y hy => hA y (List.mem_cons_of_mem a hy)
    simp only [List.cons_append]
    unfold insertStable
    rw [if_pos (by rw [sortPlaceholdersLower_ph_lit x a hx ha]; decide)]
    rw [ih hA']

/-- The sort applied to `pathNames` in `initRoutes` is exactly the stable
partition: literal paths first in original order, placeholder paths after
in original order. -/
theorem sortPaths_partition (l : List String) :
    sortPaths l
      = l.filter (fun s => !hasPlaceholder s) ++ l.filter (fun s => hasPlaceholder s) := by
  induction l with
  | nil => rfl
  | cons x xs ih =>
    show insertStable sortPlaceholdersLower x (sortPaths xs) = _
    rw [ih]
    cases hx : hasPlaceholder x with
    | false =>
      rw [insertStable_lit x hx]
      simp [List.filter_cons, hx]
    | true =>
      rw [insertStable_ph x hx _ _
        (fun y hy => by
          have := List.of_mem_filter hy
          simpa using this)
        (fun y hy => by
          have := List.of_mem_filter hy
          simpa using this)]
      simp [List.filter_cons, hx]

/--
C4: the sort used before route binding (`pathNames.sort(sortPlaceholdersLower)`)
produces a stable partition — every path without the placeholder marker `:`
precedes every path containing one, the relative order within each class is
the original registration order, and the comparator returns `0` for any two
placeholder paths; in particular the sibling paths `/foo/bar` and
`/foo/:id` are bound literal-first in either registration order.
-/
theorem c4_sort_stable_partition (l : List String) (a b : String)
    (ha : hasPlaceholder a = true) (hb : hasPlaceholder b = true) :
    sortPaths l
        = l.filter (fun s => !hasPlaceholder s) ++ l.filter (fun s => hasPlaceholder s)
    ∧ sortPlaceholdersLower a b = 0
    ∧ sortPaths ["/foo/:id", "/foo/bar"] = ["/foo/bar", "/foo/:id"]
    ∧ sortPaths ["/foo/bar", "/foo/:id"] = ["/foo/bar", "/foo/:id"] :=
  ⟨sortPaths_partition l, sortPlaceholdersLower_ph_ph a b ha hb, by decide, by decide⟩

/-- C4 witness at the concrete sibling paths of the claim. -/
theorem c4_sort_stable_partition_witness :
    sortPaths ["/foo/:id", "/foo/bar"]
        = (["/foo/:id", "/foo/bar"].filter (fun s => !hasPlaceholder s)
            ++ ["/foo/:id", "/foo/bar"].filter (fun s => hasPlaceholder s))
    ∧ sortPlaceholdersLower "/foo/:id" "/:x" = 0
    ∧ sortPaths ["/foo/:id", "/foo/bar"] = ["/foo/bar", "/foo/:id"]
    ∧ sortPaths ["/foo/bar", "/foo/:id"] = ["/foo/bar", "/foo/:id"] :=
  c4_sort_stable_partition ["/foo/:id", "/foo/bar"] "/foo/:id" "/:x"
    (by decide) (by decide)

/-! ## C8: scalar controller fields are overridden by the later module -/

/-- The accumulation of controller specs at one node, in load order: the
file loop starts from `route.controller = {}` and `_.merge`s each spec, and
the cross-module merge continues the same fold on the node's fields. -/
def mergeControllerSpecs (specs : List (List (String × JVal))) : List (String × JVal) :=
  specs.foldl lmergeObjGo []

theorem lmerge_atom (d : JVal) (t : String) : lmerge d (.atom t) = .atom t := by
  cases d <;> rfl

theorem aLookup_lmergeObjGo_notin (sl : List (String × JVal)) (dl : List (String × JVal))
    (k : String) (h : ¬ k ∈ aKeys sl) :
    aLookup k (lmergeObjGo dl sl) = aLookup k dl := by
  induction sl generalizing dl with
  | nil => rfl
  | cons e sl' ih =>
    obtain ⟨k1, v1⟩ := e
    have hk1 : k ≠ k1 := fun c => h (by simp [aKeys, c])
    have hrest : ¬ k ∈ aKeys sl' := fun c => h (by simp [aKeys] at c ⊢; exact Or.inr c)
    show aLookup k (lmergeObjGo (aSet dl k1 _) sl') = _
    rw [ih _ hrest]
    exact aLookup_aSet_ne dl k1 k _ hk1

theorem lmergeObjGo_append (s1 : List (String × JVal)) (dl s2 : List (String × JVal)) :
    lmergeObjGo dl (s1 ++ s2) = lmergeObjGo (lmergeObjGo dl s1) s2 := by
  induction s1 generalizing dl with
  | nil => rfl
  | cons e s1' ih =>
    obtain ⟨k1, v1⟩ := e
    show lmergeObjGo (aSet dl k1 _) (s1' ++ s2) = _
    rw [ih]
    rfl

theorem aLookup_lmergeObjGo_atom (dl s1 s2 : List (String × JVal)) (k v : String)
    (h2 : ¬ k ∈ aKeys s2) :
    aLookup k (lmergeObjGo dl (s1 ++ (k, .atom v) :: s2)) = some (.atom v) := by
  rw [lmergeObjGo_append]
  show aLookup k (lmergeObjGo (aSet (lmergeObjGo dl s1) k _) s2) = _
  rw [aLookup_lmergeObjGo_notin _ _ _ h2, aLookup_aSet_self]
  cases hl : aLookup k (lmergeObjGo dl s1) with
  | none => simp [hl]
  | some dv => simp [hl, lmerge_atom]

theorem aLookup_mergeFold_notin (ds : List (List (String × JVal)))
    (dl : List (String × JVal)) (k : String) (h : ∀ p ∈ ds, ¬ k ∈ aKeys p) :
    aLookup k (ds.foldl lmergeObjGo dl) = aLookup k dl := by
  induction ds generalizing dl with
  | nil => rfl
  | cons p ds' ih =>
    show aLookup k (ds'.foldl lmergeObjGo (lmergeObjGo dl p)) = _
    rw [ih _ fun q hq => h q (List.mem_cons_of_mem p hq)]
    exact aLookup_lmergeObjGo_notin p dl k (h p (List.mem_cons_self p ds'))

/--
C8: a scalar controller field declared by module `Mk` and redeclared by a
later module `Mj` ends up with `Mj`'s value after the merge fold, whenever
no module after `Mj` redeclares it; and concretely, scanning modules
`[base, app]` that both declare controller action `get` at path `widgets`
with `base` defining `{method: X}` and `app` defining `{extra: Y}`, the
merged node's `controllerSpec.get` is `{method: X, extra: Y}`.
-/
theorem c8_scalar_override (pre post : List (List (String × JVal)))
    (s1 s2 : List (String × JVal)) (k v : String) (X Y : String)
    (h2 : ¬ k ∈ aKeys s2) (hpost : ∀ p ∈ post, ¬ k ∈ aKeys p) :
    aLookup k (mergeControllerSpecs (pre ++ (s1 ++ (k, .atom v) :: s2) :: post))
        = some (.atom v)
    ∧ objLookup "get"
        (nodeAt
          (mergeModuleTrees
            [((initAppDirRoot "base" ".hbs"
                (.dir [("widgets", .dir [("a.controller.js",
                  .file (.obj [("get", .obj [("method", .atom X)])]))])])
                RTree.empty).toOption.getD RTree.empty),
             ((initAppDirRoot "app" ".hbs"
                (.dir [("widgets", .dir [("b.controller.js",
                  .file (.obj [("get", .obj [("extra", .atom Y)])]))])])
                RTree.empty).toOption.getD RTree.empty)])
          ["widgets"]).controller
        = some (.obj [("method", .atom X), ("extra", .atom Y)]) := by
  constructor
  · unfold mergeControllerSpecs
    rw [List.foldl_append]
    show aLookup k (post.foldl lmergeObjGo _) = _
    rw [aLookup_mergeFold_notin post _ k hpost]
    exact aLookup_lmergeObjGo_atom _ s1 s2 k v h2
  · rfl

/-- C8 witness: three modules, the second declaring the scalar field
`get = "B"` last. -/
theorem c8_scalar_override_witness :
    aLookup "get"
        (mergeControllerSpecs
          [[("a", JVal.atom "q")],
           ([("other", JVal.atom "w")] ++ ("get", JVal.atom "B") :: []),
           [("b", JVal.atom "r")]])
        = some (.atom "B")
    ∧ objLookup "get"
        (nodeAt
          (mergeModuleTrees
            [((initAppDirRoot "base" ".hbs"
                (.dir [("widgets", .dir [("a.controller.js",
                  .file (.obj [("get", .obj [("method", .atom "X")])]))])])
                RTree.empty).toOption.getD RTree.empty),
             ((initAppDirRoot "app" ".hbs"
                (.dir [("widgets", .dir [("b.controller.js",
                  .file (.obj [("get", .obj [("extra", .atom "Y")])]))])])
                RTree.empty).toOption.getD RTree.empty)])
          ["widgets"]).controller
        = some (.obj [("method", .atom "X"), ("extra", .atom "Y")]) :=
  c8_scalar_override [[("a", JVal.atom "q")]] [[("b", JVal.atom "r")]]
    [("other", JVal.atom "w")] [] "get" "B" "X" "Y" (by decide) (by decide)

/-! ## C6: synthesis of default controllers for unclaimed templates -/

theorem lookupSpecs_pushGetSpec_self (paths : Paths) (p : String) (s : CSpec) :
    lookupSpecs (pushGetSpec paths p s) p "get" = lookupSpecs paths p "get" ++ [s] := by
  unfold pushGetSpec lookupSpecs
  rw [aLookup_aSet_self]
  simp only [Option.getD_some]
  rw [aLookup_aSet_self]
  simp only [Option.getD_some]

theorem lookupSpecs_pushGetSpec_ne_path (paths : Paths) (p p' m : String) (s : CSpec)
    (h : p' ≠ p) :
    lookupSpecs (pushGetSpec paths p s) p' m = lookupSpecs paths p' m := by
  unfold pushGetSpec lookupSpecs
  rw [aLookup_aSet_ne _ _ _ _ h]

theorem lookupSpecs_pushGetSpec_ne_method (paths : Paths) (p p' m : String) (s : CSpec)
    (h : m ≠ "get") :
    lookupSpecs (pushGetSpec paths p s) p' m = lookupSpecs paths p' m := by
  by_cases hp : p' = p
  · subst hp
    unfold pushGetSpec lookupSpecs
    rw [aLookup_aSet_self]
    simp only [Option.getD_some]
    rw [aLookup_aSet_ne _ _ _ _ h]
  · exact lookupSpecs_pushGetSpec_ne_path paths p p' m s hp

theorem synthFold_self (P : String) (roles : List (String × String)) (paths : Paths) :
    lookupSpecs
        (roles.foldl (fun acc2 r => pushGetSpec acc2 P (synthSpec r.1 r.2)) paths) P "get"
      = lookupSpecs paths P "get" ++ roles.map (fun r => synthSpec r.1 r.2) := by
  induction roles generalizing paths with
  | nil => simp
  | cons r roles' ih =>
    show lookupSpecs (roles'.foldl _ (pushGetSpec paths P (synthSpec r.1 r.2))) P "get" = _
    rw [ih, lookupSpecs_pushGetSpec_self]
    simp

theorem synthFold_ne_method (P : String) (roles : List (String × String)) (paths : Paths)
    (p m : String) (h : m ≠ "get") :
    lookupSpecs
        (roles.foldl (fun acc2 r => pushGetSpec acc2 P (synthSpec r.1 r.2)) paths) p m
      = lookupSpecs paths p m := by
  induction roles generalizing paths with
  | nil => rfl
  | cons r roles' ih =>
    show lookupSpecs (roles'.foldl _ (pushGetSpec paths P (synthSpec r.1 r.2))) p m = _
    rw [ih, lookupSpecs_pushGetSpec_ne_method _ _ _ _ _ h]

theorem synthFold_ne_path (P P' : String) (roles : List (String × String)) (paths : Paths)
    (m : String) (h : P' ≠ P) :
    lookupSpecs
        (roles.foldl (fun acc2 r => pushGetSpec acc2 P (synthSpec r.1 r.2)) paths) P' m
      = lookupSpecs paths P' m := by
  induction roles generalizing paths with
  | nil => rfl
  | cons r roles' ih =>
    show lookupSpecs (roles'.foldl _ (pushGetSpec paths P (synthSpec r.1 r.2))) P' m = _
    rw [ih, lookupSpecs_pushGetSpec_ne_path _ _ _ _ _ h]

theorem outerFold_frame (P m : String) (b : TMap) :
    ∀ paths : Paths, (∀ e ∈ b, synthPath e.1 ≠ P) →
    lookupSpecs
        (b.foldl (fun acc e =>
          e.2.foldl (fun acc2 r => pushGetSpec acc2 (synthPath e.1) (synthSpec r.1 r.2)) acc)
          paths) P m
      = lookupSpecs paths P m := by
  induction b with
  | nil => intro paths _; rfl
  | cons e b' ih =>
    intro paths h
    show lookupSpecs (b'.foldl _ (e.2.foldl _ paths)) P m = _
    rw [ih _ fun x hx => h x (List.mem_cons_of_mem e hx)]
    exact synthFold_ne_path (synthPath e.1) P e.2 paths m
      fun c => h e (List.mem_cons_self e b') c.symm

/-- The synthesis loop over a whole unclaimed map: the entries of the
template name `T` produce exactly their synthesized GET specs on
`synthPath T`, appended in order after what was already there, provided no
other template name synthesizes onto the same path. -/
theorem addTemplateControllers_mem (b1 b2 : TMap) (T : String)
    (roles : List (String × String)) (paths : Paths)
    (h : ∀ e ∈ b1 ++ b2, synthPath e.1 ≠ synthPath T) :
    lookupSpecs (addTemplateControllers (b1 ++ (T, roles) :: b2) paths) (synthPath T) "get"
      = lookupSpecs paths (synthPath T) "get" ++ roles.map (fun r => synthSpec r.1 r.2) := by
  unfold addTemplateControllers
  rw [List.foldl_append]
  show lookupSpecs (b2.foldl _ (roles.foldl _ (b1.foldl _ paths))) _ _ = _
  rw [outerFold_frame (synthPath T) "get" b2 _
    fun e he => h e (List.mem_append_right b1 he)]
  rw [synthFold_self]
  rw [outerFold_frame (synthPath T) "get" b1 _
    fun e he => h e (List.mem_append_left b2 he)]

/--
C6: for every `(name, role)` template pair left unclaimed, the synthesis
loop of `initRoutes` appends exactly one GET handler spec
`{ role, template: templatePath }` on the path derived from the template
name (`/` for `index`, `/name` otherwise) — after every handler spec
already present for that path and method, in unclaimed-map order — and it
touches no other http method's entry, so explicit actions are never
shadowed. Stated over an arbitrary unclaimed map around the entry (the
side condition says no other template name synthesizes onto the same
path, which holds whenever template names are distinct, `index` aside).
-/
theorem c6_default_controller_synthesis (tname : String) (roles : List (String × String))
    (paths : Paths) (b1 b2 : TMap) (h : tname ≠ "index")
    (hsep : ∀ e ∈ b1 ++ b2, synthPath e.1 ≠ synthPath tname) :
    lookupSpecs (addTemplateControllers (b1 ++ (tname, roles) :: b2) paths)
        (synthPath tname) "get"
        = lookupSpecs paths (synthPath tname) "get"
            ++ roles.map (fun r => synthSpec r.1 r.2)
    ∧ lookupSpecs (addTemplateControllers [(tname, roles)] paths) (synthPath tname) "get"
        = lookupSpecs paths (synthPath tname) "get"
            ++ roles.map (fun r => synthSpec r.1 r.2)
    ∧ lookupSpecs (addTemplateControllers [("index", roles)] paths) "/" "get"
        = lookupSpecs paths "/" "get" ++ roles.map (fun r => synthSpec r.1 r.2)
    ∧ synthPath tname = "/" ++ tname
    ∧ synthPath "index" = "/"
    ∧ (∀ p m, m ≠ "get" →
        lookupSpecs (addTemplateControllers [(tname, roles)] paths) p m
          = lookupSpecs paths p m) := by
  refine ⟨?_, ?_, ?_, ?_, rfl, ?_⟩
  · exact addTemplateControllers_mem b1 b2 tname roles paths hsep
  · exact synthFold_self (synthPath tname) roles paths
  · exact synthFold_self "/" roles paths
  · unfold synthPath
    rw [if_neg h]
  · intro p m hm
    exact synthFold_ne_method (synthPath tname) roles paths p m hm

/-- C6 witness: template `foo` with an unclaimed `all` role and an
unclaimed `bar` role, inside an unclaimed map that also holds `other` and
`index`, over a path table that already has an explicit GET handler on
`/foo`. -/
theorem c6_default_controller_synthesis_witness :
    lookupSpecs
        (addTemplateControllers
          ([("other", [("all", "other")])]
            ++ ("foo", [("all", "foo"), ("bar", "foo.bar")]) :: [("index", [("all", "index")])])
          [("/foo", [("get", [⟨none, none, some "get"⟩])])])
        (synthPath "foo") "get"
        = lookupSpecs [("/foo", [("get", [⟨none, none, some "get"⟩])])] (synthPath "foo") "get"
            ++ [("all", "foo"), ("bar", "foo.bar")].map (fun r => synthSpec r.1 r.2)
    ∧ lookupSpecs
        (addTemplateControllers [("foo", [("all", "foo"), ("bar", "foo.bar")])]
          [("/foo", [("get", [⟨none, none, some "get"⟩])])])
        (synthPath "foo") "get"
        = lookupSpecs [("/foo", [("get", [⟨none, none, some "get"⟩])])] (synthPath "foo") "get"
            ++ [("all", "foo"), ("bar", "foo.bar")].map (fun r => synthSpec r.1 r.2)
    ∧ lookupSpecs
        (addTemplateControllers [("index", [("all", "foo"), ("bar", "foo.bar")])]
          [("/foo", [("get", [⟨none, none, some "get"⟩])])])
        "/" "get"
        = lookupSpecs [("/foo", [("get", [⟨none, none, some "get"⟩])])] "/" "get"
            ++ [("all", "foo"), ("bar", "foo.bar")].map (fun r => synthSpec r.1 r.2)
    ∧ synthPath "foo" = "/" ++ "foo"
    ∧ synthPath "index" = "/"
    ∧ (∀ p m, m ≠ "get" →
        lookupSpecs
          (addTemplateControllers [("foo", [("all", "foo"), ("bar", "foo.bar")])]
            [("/foo", [("get", [⟨none, none, some "get"⟩])])]) p m
          = lookupSpecs [("/foo", [("get", [⟨none, none, some "get"⟩])])] p m) :=
  c6_default_controller_synthesis "foo" [("all", "foo"), ("bar", "foo.bar")]
    [("/foo", [("get", [⟨none, none, some "get"⟩])])]
    [("other", [("all", "other")])] [("index", [("all", "index")])]
    (by decide) (by decide)

/-! ## C7: which template entry a controller action claims -/

theorem aLookup_eraseKey_self {α : Type} (l : List (String × α)) (k : String) :
    aLookup k (eraseKey l k) = none := by
  induction l with
  | nil => rfl
  | cons e rest ih =>
    obtain ⟨k1, v1⟩ := e
    by_cases h : k1 = k
    · simp only [eraseKey, if_pos h]
      exact ih
    · simp only [eraseKey, if_neg h, aLookup, if_neg h]
      exact ih

theorem aLookup_eraseKey_other {α : Type} (l : List (String × α)) (k k' : String)
    (h : k' ≠ k) :
    aLookup k' (eraseKey l k) = aLookup k' l := by
  induction l with
  | nil => rfl
  | cons e rest ih =>
    obtain ⟨k1, v1⟩ := e
    by_cases h1 : k1 = k
    · have h2 : k1 ≠ k' := fun c => h (c.symm.trans h1)
      simp only [eraseKey, if_pos h1, aLookup, if_neg h2]
      exact ih
    · simp only [eraseKey, if_neg h1, aLookup]
      by_cases h2 : k1 = k'
      · rw [if_pos h2, if_pos h2]
      · rw [if_neg h2, if_neg h2]
        exact ih

theorem lookupRole_eraseRole_self (bare : TMap) (T R : String) :
    lookupRole (eraseRole bare T R) T R = none := by
  unfold lookupRole eraseRole rolesOf
  rw [aLookup_aUpdate_self]
  cases aLookup T bare with
  | none => rfl
  | some roles =>
    exact aLookup_eraseKey_self roles R

theorem lookupRole_eraseRole_frame (bare : TMap) (T R T' R' : String)
    (h : ¬(T' = T ∧ R' = R)) :
    lookupRole (eraseRole bare T R) T' R' = lookupRole bare T' R' := by
  unfold lookupRole eraseRole rolesOf
  by_cases hT : T' = T
  · subst hT
    have hR : R' ≠ R := fun c => h ⟨rfl, c⟩
    rw [aLookup_aUpdate_self]
    cases aLookup T' bare with
    | none => rfl
    | some roles =>
      exact aLookup_eraseKey_other roles R R' hR
  · rw [aLookup_aUpdate_ne _ _ _ _ hT]

/--
C7 counterexample. The node's template map holds both `(foo, all)` and
`(foo, bar)`; two controller actions (on two different paths) both
reference template `foo` with role `bar`. The exact pair `(foo, bar)`
exists on the node for both actions, yet after the claiming loop the
`(foo, all)` entry has been claimed as well — the second action falls to
the `'all'` fallback because the precedence test looks at the mutated
clone, not at the node's template map.
-/
theorem c7_claiming_counterexample :
    lookupRole [("foo", [("all", "p1"), ("bar", "p2")])] "foo" "bar" = some "p2"
    ∧ claimAll [("foo", [("all", "p1"), ("bar", "p2")])]
        [("foo", [("all", "p1"), ("bar", "p2")])]
        [("/a", [("get", [⟨some "bar", some "foo", none⟩])]),
         ("/b", [("get", [⟨some "bar", some "foo", none⟩])])]
      = [("foo", [])]
    ∧ lookupRole
        (claimAll [("foo", [("all", "p1"), ("bar", "p2")])]
          [("foo", [("all", "p1"), ("bar", "p2")])]
          [("/a", [("get", [⟨some "bar", some "foo", none⟩])]),
           ("/b", [("get", [⟨some "bar", some "foo", none⟩])])])
        "foo" "all" = none := by decide

/--
C7 amended: one claiming step for an action with template reference `T`
(declared or inferred from the method name) and role `R`, on a node whose
template map has an entry for `T`: if the **still-unclaimed clone** has
`(T, R)`, exactly that pair is claimed — removed from the clone, all other
entries untouched; otherwise, if the clone still has `(T, all)`, that entry
is claimed; otherwise nothing changes. The exact-role match takes
precedence over the `all` fallback only with respect to the remaining
unclaimed entries, so an action whose exact pair was already claimed by an
earlier action claims the `(T, all)` entry instead.
-/
theorem c7_claiming_amended (templates bare : TMap) (spec : CSpec) (T R : String)
    (hT : (spec.template.orElse fun _ => spec.methodName) = some T)
    (hR : spec.role.getD "all" = R)
    (hdef : (aLookup T templates).isSome = true) :
    ((lookupRole bare T R).isSome = true →
        claimStep templates bare spec = eraseRole bare T R)
    ∧ (lookupRole bare T R = none → (lookupRole bare T "all").isSome = true →
        claimStep templates bare spec = eraseRole bare T "all")
    ∧ (lookupRole bare T R = none → lookupRole bare T "all" = none →
        claimStep templates bare spec = bare)
    ∧ (∀ R₀, lookupRole (eraseRole bare T R₀) T R₀ = none)
    ∧ (∀ T' R₀ R', ¬(T' = T ∧ R' = R₀) →
        lookupRole (eraseRole bare T R₀) T' R' = lookupRole bare T' R') := by
  have step : claimStep templates bare spec
      = if (aLookup T templates).isSome then
          if (aLookup R (rolesOf bare T)).isSome then eraseRole bare T R
          else if (aLookup "all" (rolesOf bare T)).isSome then eraseRole bare T "all"
          else bare
        else bare := by
    unfold claimStep
    rw [hT, hR]
  refine ⟨?_, ?_, ?_, ?_, ?_⟩
  · intro hsome
    have hsome2 : (aLookup R (rolesOf bare T)).isSome = true := hsome
    rw [step, if_pos hdef, if_pos hsome2]
  · intro hnone hall
    have hall2 : (aLookup "all" (rolesOf bare T)).isSome = true := hall
    rw [step, if_pos hdef]
    rw [show aLookup R (rolesOf bare T) = none from hnone]
    simp only [Option.isSome_none, Bool.false_eq_true, if_false]
    rw [if_pos hall2]
  · intro hnone hallnone
    rw [step, if_pos hdef]
    rw [show aLookup R (rolesOf bare T) = none from hnone]
    simp only [Option.isSome_none, Bool.false_eq_true, if_false]
    rw [show aLookup "all" (rolesOf bare T) = none from hallnone]
    simp
  · intro R₀
    exact lookupRole_eraseRole_self bare T R₀
  · intro T' R₀ R' h
    exact lookupRole_eraseRole_frame bare T R₀ T' R' h

/-- C7 witness: an action `{role: bar, template: foo}` against a node with
templates `(foo, all)` and `(foo, bar)`, all still unclaimed. -/
theorem c7_claiming_amended_witness :
    (((lookupRole [("foo", [("all", "p1"), ("bar", "p2")])] "foo" "bar").isSome = true →
        claimStep [("foo", [("all", "p1"), ("bar", "p2")])]
            [("foo", [("all", "p1"), ("bar", "p2")])]
            ⟨some "bar", some "foo", none⟩
          = eraseRole [("foo", [("all", "p1"), ("bar", "p2")])] "foo" "bar")
    ∧ (lookupRole [("foo", [("all", "p1"), ("bar", "p2")])] "foo" "bar" = none →
        (lookupRole [("foo", [("all", "p1"), ("bar", "p2")])] "foo" "all").isSome = true →
        claimStep [("foo", [("all", "p1"), ("bar", "p2")])]
            [("foo", [("all", "p1"), ("bar", "p2")])]
            ⟨some "bar", some "foo", none⟩
          = eraseRole [("foo", [("all", "p1"), ("bar", "p2")])] "foo" "all")
    ∧ (lookupRole [("foo", [("all", "p1"), ("bar", "p2")])] "foo" "bar" = none →
        lookupRole [("foo", [("all", "p1"), ("bar", "p2")])] "foo" "all" = none →
        claimStep [("foo", [("all", "p1"), ("bar", "p2")])]
            [("foo", [("all", "p1"), ("bar", "p2")])]
            ⟨some "bar", some "foo", none⟩
          = [("foo", [("all", "p1"), ("bar", "p2")])])
    ∧ (∀ R₀, lookupRole
        (eraseRole [("foo", [("all", "p1"), ("bar", "p2")])] "foo" R₀) "foo" R₀ = none)
    ∧ (∀ T' R₀ R', ¬(T' = "foo" ∧ R' = R₀) →
        lookupRole (eraseRole [("foo", [("all", "p1"), ("bar", "p2")])] "foo" R₀) T' R'
          = lookupRole [("foo", [("all", "p1"), ("bar", "p2")])] T' R')) :=
  c7_claiming_amended [("foo", [("all", "p1"), ("bar", "p2")])]
    [("foo", [("all", "p1"), ("bar", "p2")])]
    ⟨some "bar", some "foo", none⟩ "foo" "bar" (by decide) (by decide) (by decide)

/-! ## C10: claiming operates on a clone of the node's template map -/

/--
C10: the template-claiming and default-controller-synthesis step of
`initRoutes` leaves the node's `templates` field exactly as the scan phase
produced it — claiming deletes entries only from the deep clone
(`bareTemplates = _.cloneDeep(route.templates)`), which is what the
synthesis loop then consumes.
-/
theorem c10_templates_frame (n : NodeCtl) :
    (initRoutesNode n).templates = n.templates
    ∧ (initRoutesNode n).paths
        = addTemplateControllers (claimAll n.templates n.templates n.paths) n.paths :=
  ⟨rfl, rfl⟩

/-! ## C5: the `loaded` guard short-circuits repeated scans -/

theorem setChild_children (t : RTree) (name : String) (c : RTree) :
    (setChild t name c).children = aSet t.children name c := by
  cases t
  rfl

theorem nodeAt_ensurePathGo (rel : List String) :
    ∀ t : RTree, nodeAt (ensurePathGo t rel) rel = nodeAt t rel := by
  induction rel with
  | nil => intro t; rfl
  | cons d rest ih =>
    intro t
    show nodeAt (setChild t d (ensurePathGo ((aLookup d t.children).getD RTree.empty) rest))
        (d :: rest) = _
    simp only [nodeAt]
    rw [setChild_children, aLookup_aSet_self]
    simp only [Option.getD_some]
    exact ih _

theorem setRoot_fields (t : RTree) :
    t.setRoot.loaded = t.loaded ∧ t.setRoot.controller = t.controller
    ∧ t.setRoot.model = t.model ∧ t.setRoot.templates = t.templates
    ∧ t.setRoot.templatesInverse = t.templatesInverse
    ∧ t.setRoot.children = t.children := by
  cases t
  exact ⟨rfl, rfl, rfl, rfl, rfl, rfl⟩

/--
C5: once the node at a relative path is `loaded`, any further scan of the
same relative path short-circuits on the guard — `initAppDir` returns
immediately after the `routeFromRel` walk, whatever the directory listing
contains, and the node's merged controller, model and template entries are
unchanged (nothing is re-merged or duplicated). Termination is inherent:
the scan is a total function of the (finite) directory listing.
-/
theorem c5_loaded_guard (moduleName ext : String) (rel : List String)
    (entries : List (String × FsNode)) (t : RTree)
    (h : (nodeAt t rel).loaded = true) :
    initAppDirFs moduleName ext rel t (.dir entries) = .ok (ensurePath t rel)
    ∧ (nodeAt (ensurePath t rel) rel).loaded = (nodeAt t rel).loaded
    ∧ (nodeAt (ensurePath t rel) rel).controller = (nodeAt t rel).controller
    ∧ (nodeAt (ensurePath t rel) rel).model = (nodeAt t rel).model
    ∧ (nodeAt (ensurePath t rel) rel).templates = (nodeAt t rel).templates
    ∧ (nodeAt (ensurePath t rel) rel).templatesInverse = (nodeAt t rel).templatesInverse
    ∧ (nodeAt (ensurePath t rel) rel).children = (nodeAt t rel).children := by
  cases rel with
  | nil =>
    obtain ⟨f1, f2, f3, f4, f5, f6⟩ := setRoot_fields t
    have hl : (nodeAt t.setRoot []).loaded = true := by
      show t.setRoot.loaded = true
      rw [f1]
      exact h
    constructor
    · show initAppDirFs moduleName ext [] t (.dir entries) = _
      simp only [initAppDirFs, ensurePath]
      rw [hl]
      simp
    · exact ⟨f1, f2, f3, f4, f5, f6⟩
  | cons d rest =>
    have heq : nodeAt (ensurePath t (d :: rest)) (d :: rest) = nodeAt t (d :: rest) := by
      show nodeAt (ensurePathGo t (d :: rest)) (d :: rest) = _
      exact nodeAt_ensurePathGo (d :: rest) t
    have hl : (nodeAt (ensurePath t (d :: rest)) (d :: rest)).loaded = true := by
      rw [heq]; exact h
    refine ⟨?_, by rw [heq], by rw [heq], by rw [heq], by rw [heq], by rw [heq], by rw [heq]⟩
    simp only [initAppDirFs]
    rw [hl]
    simp

/-- The tree produced by a first scan of a module root (used by the C5
witness as the already-loaded state). -/
def c5firstScanTree : RTree :=
  (initAppDirFs "app" ".hbs" [] RTree.empty
    (.dir [("b.controller.js", .file (.obj []))])).toOption.getD RTree.empty

/-- C5 witness: re-scanning the root of an actually-scanned module tree,
with a listing that would otherwise add a controller and a child node,
short-circuits and leaves every field of the node untouched. -/
theorem c5_loaded_guard_witness :
    initAppDirFs "app" ".hbs" [] c5firstScanTree
        (.dir [("w", .dir []), ("a.controller.js", .file (.obj [("k", .atom "v")]))])
      = .ok (ensurePath c5firstScanTree [])
    ∧ (nodeAt (ensurePath c5firstScanTree []) []).loaded
        = (nodeAt c5firstScanTree []).loaded
    ∧ (nodeAt (ensurePath c5firstScanTree []) []).controller
        = (nodeAt c5firstScanTree []).controller
    ∧ (nodeAt (ensurePath c5firstScanTree []) []).model
        = (nodeAt c5firstScanTree []).model
    ∧ (nodeAt (ensurePath c5firstScanTree []) []).templates
        = (nodeAt c5firstScanTree []).templates
    ∧ (nodeAt (ensurePath c5firstScanTree []) []).templatesInverse
        = (nodeAt c5firstScanTree []).templatesInverse
    ∧ (nodeAt (ensurePath c5firstScanTree []) []).children
        = (nodeAt c5firstScanTree []).children :=
  c5_loaded_guard "app" ".hbs" []
    [("w", .dir []), ("a.controller.js", .file (.obj [("k", .atom "v")]))]
    c5firstScanTree (by decide)

end ImmutableApp
